import Mathlib

/-!
# Verification of the EVE-Preview-Manager daemon core

Shallow embedding of the daemon's window-classification pipeline, X11
query/ops layer, input/focus event handlers and font renderer, translated
from the Rust sources (`src/x11/query.rs`, `src/x11/ops.rs`,
`src/x11/context.rs`, `src/preview/window_detection.rs`,
`src/preview/font.rs`, `src/daemon/handlers/input.rs`,
`src/daemon/handlers/state.rs`).

Strings read from the display server are modelled as `List Char`; X11
window ids, atoms and timestamps as `Nat`; pixel coordinates as `Int`
(the i16 arithmetic of the source never overflows in any scenario the
claims touch).  Display-server round-trips are modelled by a `Reply`
oracle carrying either the reply payload, the "window destroyed"
(`BadWindow`) error, or any other protocol error.  Filesystem
inspection (`/proc/<pid>/...`) is modelled by an oracle predicate.
-/

namespace EvePreview

/-! ## List-of-char string primitives (`str::strip_prefix`, `str::contains`) -/

/-- Model of Rust `str::strip_prefix`: `stripPfx p t = some s` iff `t = p ++ s`. -/
def stripPfx : List Char → List Char → Option (List Char)
  | [], t => some t
  | _ :: _, [] => none
  | p :: ps, c :: cs => if p = c then stripPfx ps cs else none

/-- Model of Rust `str::contains` (substring search). -/
def containsSub (needle : List Char) : List Char → Bool
  | [] => (stripPfx needle []).isSome
  | c :: cs => (stripPfx needle (c :: cs)).isSome || containsSub needle cs

/-! ## Display-server reply oracle

A `get_property` round-trip either yields the property value, fails with
an X11 `BadWindow` error (the window was destroyed between query and
reply), or fails with some other protocol error.  This mirrors the
`match cookie.reply()` arms of `src/x11/query.rs`. -/

inductive Reply (α : Type) where
  | ok (value : α)
  | windowGone
  | otherError
  deriving DecidableEq

/-! ## Title gate (`is_window_eve`, `src/x11/query.rs:14-53`)

The EVE window-title constants live in the repository's constants module,
which is not among the provided sources; the code comment at
`window_detection.rs:101` fixes the prefix as `"EVE - "`.  The title gate
is therefore parameterised by the two title constants; the concrete
values used in witnesses follow that comment. -/

/-- The container marker rejected by the title gate (hard-coded in
`query.rs:41`). -/
def steamAppMarker : List Char := "steam_app_".data

/-- Model of `EveWindowType` from the repository's domain types: a logged-in
client carries its character name, the logged-out client carries none. -/
inductive EveWindowType where
  | LoggedIn (name : List Char)
  | LoggedOut
  deriving DecidableEq

/-- Model of `EveWindowType::character_name`: the character name, empty for the
logged-out variant. -/
def EveWindowType.character_name : EveWindowType → List Char
  | .LoggedIn name => name
  | .LoggedOut => []

/-- The pure classification at the heart of `is_window_eve`
(`query.rs:39-52`): strip the title prefix; a surviving suffix that does
not contain the container marker is a logged-in client named by the
suffix; otherwise, exact equality with the logged-out title yields the
logged-out variant; everything else is rejected. -/
def classify_title (pfx loggedOutTitle title : List Char) : Option EveWindowType :=
  match stripPfx pfx title with
  | some name =>
      if containsSub steamAppMarker name then none
      else some (.LoggedIn name)
  | none =>
      if title = loggedOutTitle then some .LoggedOut else none

/-- Model of `is_window_eve` (`query.rs:14-53`): query `WM_NAME`; a `BadWindow`
reply returns `none` (window destroyed, not an error), any other error
propagates, and a successful reply is classified by `classify_title`. -/
def is_window_eve (pfx loggedOutTitle : List Char) (nameReply : Reply (List Char)) :
    Except Unit (Option EveWindowType) :=
  match nameReply with
  | .windowGone => .ok none
  | .otherError => .error ()
  | .ok title => .ok (classify_title pfx loggedOutTitle title)

/-- Model of `get_window_class` (`query.rs:56-99`): query `WM_CLASS`; `BadWindow`
returns `none`; an empty value returns `none`; otherwise split the raw
bytes on NUL and keep the second part when present and non-empty, else
the first. -/
def get_window_class (classReply : Reply (List Nat)) : Except Unit (Option (List Nat)) :=
  match classReply with
  | .windowGone => .ok none
  | .otherError => .error ()
  | .ok value =>
      if value = [] then .ok none
      else
        let parts := value.splitOn 0
        let classBytes :=
          if 2 ≤ parts.length ∧ parts.getD 1 [] ≠ [] then parts.getD 1 []
          else parts.getD 0 []
        .ok (some classBytes)

/-- Model of `is_window_minimized` (`query.rs:102-161`): first query
`_NET_WM_STATE` (a `BadWindow` reply returns `false`); if the hidden atom
is present return `true`; otherwise query `WM_STATE` (a `BadWindow` reply
returns `false`) and return whether its first value is the ICCCM iconic
state.  The `Option` inside a successful reply models `value32()`
returning `None` for non-32-bit payloads. -/
def is_window_minimized (netStateReply : Reply (Option (List Nat)))
    (hiddenAtom : Nat) (wmStateReply : Reply (Option (List Nat)))
    (iconicState : Nat) : Except Unit Bool :=
  match netStateReply with
  | .windowGone => .ok false
  | .otherError => .error ()
  | .ok values =>
      if (values.getD []).contains hiddenAtom then .ok true
      else
        match wmStateReply with
        | .windowGone => .ok false
        | .otherError => .error ()
        | .ok values2 =>
            match (values2.getD []).head? with
            | some s => .ok (decide (s = iconicState))
            | none => .ok false

/-! ## Classifier gates (`check_eve_window`, `src/preview/window_detection.rs:21-149`) -/

/-- The gate deciding whether `check_eve_window` proceeds to the
(expensive) title verification (`window_detection.rs:59-98`).  `pid` is
the `_NET_WM_PID` property value (absent when the property is missing or
empty), `selfPid` is `std::process::id()`, `isWine` is an oracle for
`is_wine_process` (which inspects `/proc/<pid>/exe`, `cmdline` and
`environ`), and `isKnownClass` records whether the `WM_CLASS` gate
matched a configured known-client class.  A window owned by our own
process is skipped outright. -/
def should_inspect_title (isKnownClass : Bool) (pid : Option Nat) (selfPid : Nat)
    (isWine : Nat → Bool) : Bool :=
  match pid with
  | some p =>
      if p = selfPid then false
      else if isWine p then true
      else isKnownClass
  | none => isKnownClass

/-- Model of `check_eve_window` (`window_detection.rs:21-149`): run the class,
process and title gates; return the accepted client's character name.
The title gate only runs when `should_inspect_title` holds. -/
def check_eve_window (isKnownClass : Bool) (pid : Option Nat) (selfPid : Nat)
    (isWine : Nat → Bool) (pfx loggedOutTitle : List Char)
    (nameReply : Reply (List Char)) : Except Unit (Option (List Char)) :=
  if should_inspect_title isKnownClass pid selfPid isWine then
    match is_window_eve pfx loggedOutTitle nameReply with
    | .error e => .error e
    | .ok r => .ok (r.map EveWindowType.character_name)
  else
    .ok none

/-! ## Fixed-point conversion (`to_fixed`, `src/x11/context.rs:231-234`)

`to_fixed(v) = (v * 65536.0).round() as Fixed` on `f32`.  The model uses
exact rationals with round-half-away-from-zero (the semantics of Rust's
`f32::round`); at every input the claims evaluate, the `f32` computation
is exact enough that it agrees with the exact rational computation.  The
multiplier 65536 is the repository's `fixed_point::MULTIPLIER`, as fixed
by the unit tests in `context.rs:240-278`. -/

/-- Floor of a rational as an integer, via flooring integer division. -/
def ratFloor (q : ℚ) : ℤ := Int.fdiv q.num q.den

/-- Model of `to_fixed` (`context.rs:231-234`), with `f32::round`'s
round-half-away-from-zero semantics made explicit. -/
def to_fixed (v : ℚ) : ℤ :=
  if 0 ≤ v then ratFloor (v * 65536 + 1/2)
  else - ratFloor (-v * 65536 + 1/2)

/-! ## Font renderer (`src/preview/font.rs`)

`FontRenderer` has two variants.  The TrueType (`Fontdue`) branch of
`render_text` drives the external `fontdue` rasteriser with `f32` layout
arithmetic; it is abstracted here as the rendering function carried by
the variant, since no claim inspects its output.  The `X11Fallback`
branch is modelled exactly. -/

/-- Model of `RenderedText` (`font.rs:12-16`): an ARGB bitmap. -/
structure RenderedText where
  width : Nat
  height : Nat
  data : List Nat
  deriving DecidableEq

/-- Model of `FontRenderer` (`font.rs:20-25`). -/
inductive FontRenderer where
  | Fontdue (render : List Char → Nat → RenderedText) (size : ℚ)
  | X11Fallback (font_id : Nat) (size : ℚ)

/-- Model of `FontRenderer::requires_direct_rendering` (`font.rs:99-101`):
`matches!(self, Self::X11Fallback { .. })`. -/
def FontRenderer.requires_direct_rendering : FontRenderer → Bool
  | .X11Fallback _ _ => true
  | .Fontdue _ _ => false

/-- Model of `FontRenderer::render_text` (`font.rs:121-223`): the `X11Fallback`
arm always returns the empty bitmap (core fonts render in immediate
mode); the `Fontdue` arm rasterises the text. -/
def FontRenderer.render_text : FontRenderer → List Char → Nat → RenderedText
  | .Fontdue render _, text, fg => render text fg
  | .X11Fallback _ _, _, _ => ⟨0, 0, []⟩

/-! ## Window commands (`src/x11/ops.rs`)

`minimize_window` and `unminimize_window` are fire-and-forget command
sequences; the model records the trace of protocol actions they emit.
The numeric protocol constants live in the repository's constants module
(not among the provided sources); their values are the ones fixed by the
EWMH and ICCCM standards the code implements. -/

/-- EWMH `_NET_WM_STATE` client-message action: remove the state atom. -/
def NET_WM_STATE_REMOVE : Nat := 0
/-- EWMH `_NET_WM_STATE` client-message action: add the state atom. -/
def NET_WM_STATE_ADD : Nat := 1
/-- ICCCM `WM_STATE` iconic state. -/
def ICONIC_STATE : Nat := 3
/-- ICCCM `WM_STATE` normal state. -/
def NORMAL_STATE : Nat := 1
/-- EWMH source indication "pager". -/
def ACTIVE_WINDOW_SOURCE_PAGER : Nat := 2

/-- The atoms consulted by the minimize/unminimize paths (subset of
`CachedAtoms`, `src/x11/context.rs:20-45`). -/
structure Atoms where
  net_wm_state : Nat
  net_wm_state_hidden : Nat
  wm_change_state : Nat
  deriving DecidableEq

/-- A 32-bit-format X11 client message (window, message type atom, and
the five data words), as built in `ops.rs`. -/
structure ClientMsg where
  window : Nat
  msgType : Nat
  data : List Nat
  deriving DecidableEq

/-- Protocol actions emitted by the command layer. -/
inductive X11Action where
  | sendEvent (msg : ClientMsg)
  | flush
  deriving DecidableEq

/-- The client messages contained in an action trace, in order. -/
def clientMessages (acts : List X11Action) : List ClientMsg :=
  acts.filterMap fun a =>
    match a with
    | .sendEvent m => some m
    | .flush => none

/-- Model of `minimize_window` (`ops.rs:61-117`): send the EWMH add-hidden state
message, then the ICCCM iconic change-state message, then flush. -/
def minimize_window (atoms : Atoms) (window : Nat) : List X11Action :=
  [.sendEvent ⟨window, atoms.net_wm_state,
      [NET_WM_STATE_ADD, atoms.net_wm_state_hidden, 0, ACTIVE_WINDOW_SOURCE_PAGER, 0]⟩,
   .sendEvent ⟨window, atoms.wm_change_state, [ICONIC_STATE, 0, 0, 0, 0]⟩,
   .flush]

/-- Model of `unminimize_window` (`ops.rs:120-177`): send the EWMH remove-hidden
state message, then the ICCCM normal change-state message, then flush. -/
def unminimize_window (atoms : Atoms) (window : Nat) : List X11Action :=
  [.sendEvent ⟨window, atoms.net_wm_state,
      [NET_WM_STATE_REMOVE, atoms.net_wm_state_hidden, 0, ACTIVE_WINDOW_SOURCE_PAGER, 0]⟩,
   .sendEvent ⟨window, atoms.wm_change_state, [NORMAL_STATE, 0, 0, 0, 0]⟩,
   .flush]

/-! ## Daemon session data model

Types backing the event handlers of `src/daemon/handlers/input.rs` and
`src/daemon/handlers/state.rs`.  Pieces whose defining modules are not
among the provided sources (`Thumbnail`, `SessionState`, `CycleState`,
the snap solver) are modelled from the spec, as marked on each
definition.  String maps (`HashMap` in the source) are association
lists; `alistLookup` returns the first binding, `alistInsert` replaces
any existing binding. -/

/-- Association-list lookup (models `HashMap::get`). -/
def alistLookup {α β : Type} [DecidableEq α] (m : List (α × β)) (k : α) : Option β :=
  (m.find? fun p => p.1 = k).map (·.2)

/-- Association-list insert (models `HashMap::insert`). -/
def alistInsert {α β : Type} [DecidableEq α] (m : List (α × β)) (k : α) (v : β) :
    List (α × β) :=
  (k, v) :: m.filter fun p => p.1 ≠ k

/-- Model of `Position` (i16 × i16 in the source). -/
structure Pos where
  x : Int
  y : Int
  deriving DecidableEq

/-- Model of `Dimensions` (u16 × u16 in the source). -/
structure Dim where
  width : Nat
  height : Nat
  deriving DecidableEq

/-- Model of `Rect` from `daemon/snapping.rs` (position plus dimensions). -/
structure SnapRect where
  x : Int
  y : Int
  width : Nat
  height : Nat
  deriving DecidableEq

/-- Model of `InputState` of a thumbnail (spec §3: dragging flag, drag anchor,
window-start position, frozen snap-target list). -/
structure InputState where
  dragging : Bool
  drag_start : Pos
  win_start : Pos
  snap_targets : List SnapRect
  deriving DecidableEq

/-- Model of `ThumbnailState` (domain types module): `Normal{focused}`,
`Minimized` or `Hidden`. -/
inductive TState where
  | normal (focused : Bool)
  | minimized
  | hidden
  deriving DecidableEq

/-- Model of `ThumbnailState::is_focused`. -/
def TState.is_focused : TState → Bool
  | .normal f => f
  | _ => false

/-- Model of `ThumbnailState::is_minimized`. -/
def TState.is_minimized : TState → Bool
  | .minimized => true
  | _ => false

/-- Modelled from the spec: the `Thumbnail` struct (`preview/thumbnail.rs`
is not among the provided sources).  `position` is the overlay geometry
the display server would report for `get_geometry(thumbnail.window())`;
`visible` records mapped/unmapped (`is_visible`). -/
structure Thumb where
  character_name : String
  position : Pos
  dimensions : Dim
  state : TState
  visible : Bool
  input_state : InputState
  deriving DecidableEq

/-- Modelled from the spec (§4.4): `Thumbnail::is_hovered` is a pure
point-in-rect test against `position × dimensions`. -/
def Thumb.is_hovered (t : Thumb) (rx ry : Int) : Bool :=
  t.position.x ≤ rx && rx < t.position.x + t.dimensions.width &&
  t.position.y ≤ ry && ry < t.position.y + t.dimensions.height

/-- Model of `CharacterSettings` (domain types module): per-identity persisted
geometry plus the render override and the minimize exemption. -/
structure CharacterSettings where
  x : Int
  y : Int
  width : Nat
  height : Nat
  override_render_preview : Option Bool
  exempt_from_minimize : Bool
  deriving DecidableEq

/-- Model of `CharacterSettings::new(x, y, w, h)`: fresh settings carry no render
override and no minimize exemption. -/
def CharacterSettings.new (x y : Int) (w h : Nat) : CharacterSettings :=
  ⟨x, y, w, h, none, false⟩

/-- Model of `CustomWindowRule` (only the alias is consulted by the handlers). -/
structure CustomWindowRule where
  alias' : String
  deriving DecidableEq

/-- The profile flags and rules the handlers read. -/
structure Profile where
  client_minimize_on_switch : Bool
  thumbnail_snap_threshold : Nat
  custom_windows : List CustomWindowRule
  deriving DecidableEq

/-- Model of `DaemonConfig`: profile plus the two per-identity settings maps. -/
structure DaemonConfig where
  profile : Profile
  character_thumbnails : List (String × CharacterSettings)
  custom_source_thumbnails : List (String × CharacterSettings)
  deriving DecidableEq

/-- The display configuration fields read by the focus handlers. -/
structure DisplayConfig where
  hide_when_no_focus : Bool
  enabled : Bool
  character_settings : List (String × CharacterSettings)
  deriving DecidableEq

/-- Modelled from the spec (§3, §4.6): the session-state fields the
handlers touch (`daemon/session_state.rs` is not among the provided
sources).  `window_positions` backs `update_window_position`; the
deadline is an optional instant in milliseconds. -/
structure SessionState where
  window_positions : List (Nat × Pos)
  focus_loss_deadline : Option Nat
  deriving DecidableEq

/-- Modelled from the spec (§4.6): the cycle-anchor state.  `current` is
the anchor identity, `current_window` the window the dispatcher expects
to receive focus (set when focus lands on a tracked window), `skipped`
the user's skip-list. -/
structure CycleState where
  current : Option String
  current_window : Option Nat
  skipped : List String
  deriving DecidableEq

/-- Modelled from the spec: `CycleState::set_current` records the anchor
identity. -/
def CycleState.set_current (cs : CycleState) (name : String) : CycleState :=
  { cs with current := some name }

/-- Model of `CycleState::is_skipped`. -/
def CycleState.is_skipped (cs : CycleState) (name : String) : Bool :=
  cs.skipped.contains name

/-- The daemon state visible to the handlers: tracked clients (keyed by
their EVE source window), cycle anchor, session state and the two
configuration snapshots. -/
structure Sys where
  clients : List (Nat × Thumb)
  cycle : CycleState
  sess : SessionState
  cfg : DaemonConfig
  dcfg : DisplayConfig
  deriving DecidableEq

/-- First tracked client bound to window `k`. -/
def lookupClient (clients : List (Nat × Thumb)) (k : Nat) : Option Thumb :=
  (clients.find? fun p => p.1 = k).map (·.2)

/-- Point update of the client bound to window `k` (models
`HashMap::get_mut`). -/
def updateClient (clients : List (Nat × Thumb)) (k : Nat) (f : Thumb → Thumb) :
    List (Nat × Thumb) :=
  clients.map fun p => if p.1 = k then (p.1, f p.2) else p

/-- Modelled from the spec: `CycleState::set_current_by_window` syncs the
anchor to the tracked window that received focus, reporting whether the
window was tracked. -/
def CycleState.set_current_by_window (cs : CycleState) (clients : List (Nat × Thumb))
    (w : Nat) : CycleState :=
  match lookupClient clients w with
  | some t => { cs with current := some t.character_name, current_window := some w }
  | none => cs

/-! ## Snap solver (modelled from the spec)

`daemon/snapping.rs` is not among the provided sources.  Modelled from
spec §4.5: the two axes are solved independently; on each axis every
neighbor contributes four candidate coordinates (align the dragged
rectangle's low or high edge with the neighbor's low or high edge); the
closest candidate within the threshold wins, earlier candidates winning
ties; a zero threshold disables snapping globally; if neither axis snaps
the solver returns `none`. -/

/-- Best snap coordinate on one axis: `x` is the dragged low edge, `len`
the dragged extent, `nbrs` the neighbours' (low, high) edge pairs. -/
def bestAxisSnap (x len : Int) (nbrs : List (Int × Int)) (T : Nat) : Option Int :=
  let cands := nbrs.flatMap fun p => [p.1, p.2, p.1 - len, p.2 - len]
  cands.foldl
    (fun best c =>
      if (c - x).natAbs ≤ T then
        match best with
        | none => some c
        | some b => if (c - x).natAbs < (b - x).natAbs then some c else best
      else best)
    none

/-- Modelled from the spec (§4.5): `snapping::find_snap_position`. -/
def find_snap_position (dragged : SnapRect) (targets : List SnapRect) (T : Nat) :
    Option Pos :=
  if T = 0 then none
  else
    let hx := bestAxisSnap dragged.x dragged.width
      (targets.map fun r => (r.x, r.x + r.width)) T
    let hy := bestAxisSnap dragged.y dragged.height
      (targets.map fun r => (r.y, r.y + r.height)) T
    match hx, hy with
    | none, none => none
    | _, _ => some ⟨(hx.getD dragged.x), (hy.getD dragged.y)⟩

/-! ## Events, commands and handlers -/

/-- Mouse buttons (`mouse::BUTTON_LEFT` / `BUTTON_RIGHT`). -/
inductive Button where
  | left
  | right
  | other
  deriving DecidableEq

/-- A ButtonPress/ButtonRelease event: root cursor, button, timestamp. -/
structure ButtonEvent where
  root_x : Int
  root_y : Int
  detail : Button
  time : Nat
  deriving DecidableEq

/-- A MotionNotify event: root cursor position. -/
structure MotionEvent where
  root_x : Int
  root_y : Int
  deriving DecidableEq

/-- X11 `NotifyMode` of focus events. -/
inductive FocusMode where
  | normal
  | grab
  | ungrab
  | whileGrabbed
  deriving DecidableEq

/-- Observable display-server side effects and outgoing IPC messages
emitted by the handlers. -/
inductive Cmd where
  | activate (src : Nat) (time : Nat)
  | border (win : Nat) (focused : Bool) (skipped : Bool)
  | renderMinimized (win : Nat)
  | setVisible (win : Nat) (visible : Bool)
  | update (win : Nat)
  | reposition (win : Nat) (p : Pos)
  | minimize (win : Nat)
  | positionChanged (name : String) (x y : Int) (w h : Nat) (is_custom : Bool)
  | flush
  deriving DecidableEq

/-- The clicked thumbnail at ButtonPress (`input.rs:22-27`: first tracked
client that is hovered *and* visible). -/
def clickedWindowAtPress (clients : List (Nat × Thumb)) (rx ry : Int) : Option Nat :=
  (clients.find? fun p => p.2.is_hovered rx ry && p.2.visible).map (·.1)

/-- The clicked thumbnail at ButtonRelease (`input.rs:104-114`: first
tracked client that is hovered; visibility is not consulted). -/
def clickedWindowAtRelease (clients : List (Nat × Thumb)) (rx ry : Int) : Option Nat :=
  (clients.find? fun p => p.2.is_hovered rx ry).map (·.1)

/-- Snap-target capture at drag start (`input.rs:34-54`): the geometries
of every other visible tracked thumbnail, paired with their configured
dimensions. -/
def captureSnapTargets (clients : List (Nat × Thumb)) (clicked : Nat) : List SnapRect :=
  (clients.filter fun p => p.1 ≠ clicked && p.2.visible).map fun p =>
    ⟨p.2.position.x, p.2.position.y, p.2.dimensions.width, p.2.dimensions.height⟩

/-- Model of `handle_button_press` (`input.rs:14-90`): find the clicked visible
thumbnail; pre-capture snap targets for right clicks; record the drag
anchor and window-start position; a right click freezes the captured
snap targets and starts the drag, a left click records the cycle
anchor. -/
def handle_button_press (S : Sys) (ev : ButtonEvent) : Sys :=
  match clickedWindowAtPress S.clients ev.root_x ev.root_y with
  | none => S
  | some ck =>
      let targets :=
        if ev.detail = .right then captureSnapTargets S.clients ck else []
      let clients := updateClient S.clients ck fun t =>
        let t := { t with input_state :=
          { t.input_state with
              drag_start := ⟨ev.root_x, ev.root_y⟩
              win_start := t.position } }
        if ev.detail = .right then
          { t with input_state :=
            { t.input_state with snap_targets := targets, dragging := true } }
        else t
      let cycle :=
        if ev.detail = .left then
          match lookupClient S.clients ck with
          | some t => S.cycle.set_current t.character_name
          | none => S.cycle
        else S.cycle
      { S with clients := clients, cycle := cycle }

/-- The exemption lookup of the minimize-on-switch pass
(`input.rs:258-266`): custom-source settings first, then character
settings; absent settings mean not exempt. -/
def isExempt (cfg : DaemonConfig) (name : String) : Bool :=
  (match alistLookup cfg.custom_source_thumbnails name with
    | some s => some s
    | none => alistLookup cfg.character_thumbnails name).elim false
    (·.exempt_from_minimize)

/-- The minimize-on-switch target list (`input.rs:253-269`): every
tracked client other than the clicked source whose identity is not
exempt. -/
def windows_to_minimize (cfg : DaemonConfig) (clients : List (Nat × Thumb))
    (clickedSrc : Nat) : List Nat :=
  ((clients.filter fun p => p.1 ≠ clickedSrc).filter
    fun p => !isExempt cfg p.2.character_name).map (·.1)

/-- One step of the post-click border pass over a non-clicked client
(`input.rs:222-243`): minimized thumbnails are re-rendered via
`minimized()` (state unchanged), the rest are cleared to unfocused. -/
def borderOtherStep (skipFn : String → Bool) (p : Nat × Thumb) :
    (Nat × Thumb) × List Cmd :=
  if p.2.state.is_minimized then (p, [.renderMinimized p.1])
  else ((p.1, { p.2 with state := .normal false }),
    [.border p.1 false (skipFn p.2.character_name)])

/-- The client map after the post-click border pass
(`input.rs:206-247`): the clicked thumbnail becomes focused, minimized
thumbnails keep their state, the rest are cleared to unfocused. -/
def borderPassClients (clients : List (Nat × Thumb)) (ck : Nat)
    (skipFn : String → Bool) : List (Nat × Thumb) :=
  (updateClient clients ck fun t => { t with state := .normal true }).map
    fun p => if p.1 = ck then p else (borderOtherStep skipFn p).1

/-- The commands emitted by the post-click border pass
(`input.rs:206-247`): the clicked thumbnail's active border first, then
the border clears / minimized re-renders of all others, then a flush. -/
def borderPassCmds (clients : List (Nat × Thumb)) (ck : Nat)
    (skipFn : String → Bool) : List Cmd :=
  (match lookupClient clients ck with
    | some t => [Cmd.border ck true (skipFn t.character_name)]
    | none => []) ++
  (((updateClient clients ck fun t => { t with state := .normal true }).map
    fun p => if p.1 = ck then ([] : List Cmd) else (borderOtherStep skipFn p).2).flatten) ++
  [Cmd.flush]

/-- The post-click border pass (`input.rs:206-247`). -/
def borderPass (clients : List (Nat × Thumb)) (ck : Nat) (skipFn : String → Bool) :
    List (Nat × Thumb) × List Cmd :=
  (borderPassClients clients ck skipFn, borderPassCmds clients ck skipFn)

/-- Model of `handle_button_release` (`input.rs:93-298`): focus the clicked
source on left release and record the cycle anchor; on drag end save the
final geometry into the session state and — for non-empty identities
only — into the matching settings map, emitting a `PositionChanged` IPC
message; clear the drag state; on left release repaint all borders and
flush; finally, when minimize-on-switch is enabled, clear the border of
and minimize every other non-exempt tracked client. -/
def handle_button_release (S : Sys) (ev : ButtonEvent) : Sys × List Cmd :=
  match clickedWindowAtRelease S.clients ev.root_x ev.root_y with
  | none => (S, [])
  | some ck =>
      match lookupClient S.clients ck with
      | none => (S, [])
      | some t =>
          let is_left := ev.detail = .left
          let clicked_src := ck
          let character_name := t.character_name
          let cmds1 : List Cmd := if is_left then [.activate clicked_src ev.time] else []
          let cycle1 := if is_left then S.cycle.set_current character_name else S.cycle
          let geom := t.position
          let dragging := t.input_state.dragging
          let sess1 :=
            if dragging then
              { S.sess with window_positions :=
                  alistInsert S.sess.window_positions ck geom }
            else S.sess
          let is_custom :=
            S.cfg.profile.custom_windows.any fun r => r.alias' = character_name
          let settings :=
            CharacterSettings.new geom.x geom.y t.dimensions.width t.dimensions.height
          let cfg1 :=
            if dragging && character_name ≠ "" then
              if is_custom then
                { S.cfg with custom_source_thumbnails :=
                    alistInsert S.cfg.custom_source_thumbnails character_name settings }
              else
                { S.cfg with character_thumbnails :=
                    alistInsert S.cfg.character_thumbnails character_name settings }
            else S.cfg
          let cmds2 : List Cmd :=
            if dragging && character_name ≠ "" then
              [.positionChanged character_name geom.x geom.y
                t.dimensions.width t.dimensions.height is_custom]
            else []
          let clients1 := updateClient S.clients ck fun t =>
            { t with input_state :=
              { t.input_state with dragging := false, snap_targets := [] } }
          let passResult :=
            if is_left then borderPass clients1 ck (fun n => S.cycle.is_skipped n)
            else (clients1, [])
          let clients2 := passResult.1
          let cmds3 := passResult.2
          let cmds4 : List Cmd :=
            if is_left && cfg1.profile.client_minimize_on_switch then
              (windows_to_minimize cfg1 clients2 clicked_src).flatMap fun w =>
                [.border w false (S.cycle.is_skipped
                    (((lookupClient clients2 w).map (·.character_name)).getD "")),
                 .minimize w]
            else []
          ({ S with clients := clients2, cycle := cycle1, sess := sess1, cfg := cfg1 },
            cmds1 ++ cmds2 ++ cmds3 ++ cmds4)

/-- Model of `handle_motion_notify` and `handle_drag_motion`
(`input.rs:302-388`): while a thumbnail is dragging, translate it by the
cursor delta, run the snap solver against the frozen snap targets and
reposition the overlay; the drag state itself is untouched. -/
def handle_motion_notify (S : Sys) (ev : MotionEvent) : Sys × List Cmd :=
  match S.clients.find? (fun p => p.2.input_state.dragging) with
  | none => (S, [])
  | some (dw, t) =>
      let snap_threshold := S.cfg.profile.thumbnail_snap_threshold
      let snap_targets := t.input_state.snap_targets
      let dx := ev.root_x - t.input_state.drag_start.x
      let dy := ev.root_y - t.input_state.drag_start.y
      let new_x := t.input_state.win_start.x + dx
      let new_y := t.input_state.win_start.y + dy
      let dragged : SnapRect := ⟨new_x, new_y, t.dimensions.width, t.dimensions.height⟩
      let finalPos :=
        (find_snap_position dragged snap_targets snap_threshold).getD ⟨new_x, new_y⟩
      ({ S with clients := updateClient S.clients dw fun t =>
          { t with position := finalPos } },
        [.reposition dw finalPos])

/-- The per-character render override consulted when revealing
thumbnails (`state.rs:55-64`). -/
def should_render (dcfg : DisplayConfig) (name : String) : Bool :=
  ((alistLookup dcfg.character_settings name).bind
    (·.override_render_preview)).getD dcfg.enabled

/-- One step of the reveal pass of `handle_focus_in`
(`state.rs:53-79`): thumbnails whose identity is not force-hidden are
shown and recomposited. -/
def revealStep (dcfg : DisplayConfig) (p : Nat × Thumb) : (Nat × Thumb) × List Cmd :=
  if should_render dcfg p.2.character_name then
    ((p.1, { p.2 with visible := true }), [.setVisible p.1 true, .update p.1])
  else (p, [])

/-- One step of the border pass of `handle_focus_in`
(`state.rs:81-124`): the focused window gains the active border (unless
already focused), minimized thumbnails are re-rendered, all others are
cleared to unfocused. -/
def focusBorderStep (w : Nat) (skipFn : String → Bool) (p : Nat × Thumb) :
    (Nat × Thumb) × List Cmd :=
  if p.1 = w then
    if p.2.state.is_focused then (p, [])
    else ((p.1, { p.2 with state := .normal true }),
      [.border p.1 true (skipFn p.2.character_name)])
  else if p.2.state.is_minimized then (p, [.renderMinimized p.1])
  else ((p.1, { p.2 with state := .normal false }),
    [.border p.1 false (skipFn p.2.character_name)])

/-- Model of `handle_focus_in` (`state.rs:9-126`): ignore ungrab events; drop
intermediate focus events on untracked windows while a different window
is expected; sync the cycle anchor; cancel any pending auto-hide
deadline; reveal hidden thumbnails when `hide_when_no_focus` is set; and
repaint all borders. -/
def handle_focus_in (S : Sys) (w : Nat) (mode : FocusMode) : Sys × List Cmd :=
  if mode = .ungrab then (S, [])
  else
    let filtered : Bool :=
      match S.cycle.current_window with
      | some expected => w ≠ expected && (lookupClient S.clients w).isNone
      | none => false
    if filtered then (S, [])
    else
      let cycle := S.cycle.set_current_by_window S.clients w
      let sess := { S.sess with focus_loss_deadline := none }
      let revealed :=
        if S.dcfg.hide_when_no_focus && S.clients.any (fun p => !p.2.visible) then
          S.clients.map fun p => (revealStep S.dcfg p).1
        else S.clients
      let revealCmds :=
        if S.dcfg.hide_when_no_focus && S.clients.any (fun p => !p.2.visible) then
          (S.clients.map fun p => (revealStep S.dcfg p).2).flatten
        else ([] : List Cmd)
      let skipFn := fun n => S.cycle.is_skipped n
      ({ S with
          clients := revealed.map fun p => (focusBorderStep w skipFn p).1,
          cycle := cycle, sess := sess },
        revealCmds ++ (revealed.map fun p => (focusBorderStep w skipFn p).2).flatten)

/-- Model of `handle_focus_out` (`state.rs:130-157`): ignore grab events; when
`hide_when_no_focus` is set and the window losing focus is the tracked
client whose thumbnail is currently focused, schedule the auto-hide
deadline at `now + 100` milliseconds. -/
def handle_focus_out (S : Sys) (w : Nat) (mode : FocusMode) (now : Nat) : Sys :=
  if mode = .grab then S
  else if S.dcfg.hide_when_no_focus &&
      (((lookupClient S.clients w).map fun t => t.state.is_focused).getD false) then
    { S with sess := { S.sess with focus_loss_deadline := some (now + 100) } }
  else S

/-- Model of `handle_net_wm_state` (`state.rs:159-185`): when the tracked window's
`_NET_WM_STATE` now contains the hidden atom, transition the thumbnail to
`Minimized` and re-render it.  `hiddenPresent` is the oracle for the
property round-trip. -/
def handle_net_wm_state (S : Sys) (w : Nat) (hiddenPresent : Bool) : Sys × List Cmd :=
  match lookupClient S.clients w with
  | none => (S, [])
  | some _ =>
      if hiddenPresent then
        ({ S with clients := updateClient S.clients w fun t =>
            { t with state := .minimized } },
          [.renderMinimized w])
      else (S, [])

/-- The events routed through the modelled handlers.  Focus-out carries
the wall-clock instant (`Instant::now()`), net-wm-state the property
oracle. -/
inductive Event where
  | buttonPress (ev : ButtonEvent)
  | buttonRelease (ev : ButtonEvent)
  | motionNotify (ev : MotionEvent)
  | focusIn (window : Nat) (mode : FocusMode)
  | focusOut (window : Nat) (mode : FocusMode) (now : Nat)
  | netWmState (window : Nat) (hiddenPresent : Bool)
  deriving DecidableEq

/-- One dispatcher step: route the event to its handler. -/
def step (S : Sys) : Event → Sys × List Cmd
  | .buttonPress ev => (handle_button_press S ev, [])
  | .buttonRelease ev => handle_button_release S ev
  | .motionNotify ev => handle_motion_notify S ev
  | .focusIn w mode => handle_focus_in S w mode
  | .focusOut w mode now => (handle_focus_out S w mode now, [])
  | .netWmState w h => handle_net_wm_state S w h

/-- Run a sequence of events. -/
def run (S : Sys) (es : List Event) : Sys :=
  es.foldl (fun s e => (step s e).1) S

/-- The input state of the client bound to `k`. -/
def inputStateOf (S : Sys) (k : Nat) : Option InputState :=
  (lookupClient S.clients k).map (·.input_state)

/-- A command is benign when it is neither a minimize command nor an
outgoing position notification; the handlers emit those only from their
dedicated code paths. -/
def Cmd.benign : Cmd → Bool
  | .minimize _ => false
  | .positionChanged _ _ _ _ _ _ => false
  | _ => true

/-- Whether an event is a button press or release. -/
def Event.isButton : Event → Bool
  | .buttonPress _ => true
  | .buttonRelease _ => true
  | _ => false

/-! ## Initial scan settings insertion (`scan_eve_windows`,
`src/preview/window_detection.rs:293-359`)

The settings-persistence step of the initial scan: for every accepted
client (classification and thumbnail creation abstracted into the entry
list) the scan queries the source geometry and records fresh
`CharacterSettings` — skipping logged-out clients, whose character name
is empty (`window_detection.rs:331-343`). -/

/-- An accepted client of the initial scan: its window, classified
character name, thumbnail dimensions and queried geometry. -/
structure ScanEntry where
  window : Nat
  character_name : String
  dims : Dim
  geom : Pos
  deriving DecidableEq

/-- The `character_thumbnails` updates performed by the initial scan
loop (`window_detection.rs:318-346`). -/
def scan_insert_settings (entries : List ScanEntry)
    (m : List (String × CharacterSettings)) : List (String × CharacterSettings) :=
  entries.foldl
    (fun acc e =>
      if e.character_name = "" then acc
      else alistInsert acc e.character_name
        (CharacterSettings.new e.geom.x e.geom.y e.dims.width e.dims.height))
    m

/-! ## Concrete sample scenario (used by the witnesses) -/

/-- A focused, visible tracked client at the origin. -/
def sampleThumbA : Thumb :=
  { character_name := "Alice", position := ⟨0, 0⟩, dimensions := ⟨10, 10⟩,
    state := .normal true, visible := true,
    input_state := ⟨false, ⟨0, 0⟩, ⟨0, 0⟩, []⟩ }

/-- An unfocused, visible tracked client to the right of `sampleThumbA`. -/
def sampleThumbB : Thumb :=
  { character_name := "Bob", position := ⟨100, 0⟩, dimensions := ⟨20, 10⟩,
    state := .normal false, visible := true,
    input_state := ⟨false, ⟨0, 0⟩, ⟨0, 0⟩, []⟩ }

/-- A logged-out (empty-named) tracked client, mid-drag. -/
def sampleThumbE : Thumb :=
  { character_name := "", position := ⟨50, 50⟩, dimensions := ⟨10, 10⟩,
    state := .normal false, visible := true,
    input_state := ⟨true, ⟨55, 55⟩, ⟨50, 50⟩, [⟨0, 0, 10, 10⟩]⟩ }

/-- Two tracked clients, minimize-on-switch and hide-on-focus-loss
enabled, empty settings maps. -/
def sampleSys : Sys :=
  { clients := [(1, sampleThumbA), (2, sampleThumbB)],
    cycle := ⟨none, none, []⟩,
    sess := ⟨[], none⟩,
    cfg := { profile := ⟨true, 10, []⟩, character_thumbnails := [],
             custom_source_thumbnails := [] },
    dcfg := ⟨true, true, []⟩ }

/-- Variant of `sampleSys` with the logged-out dragging client tracked as window 3. -/
def sampleSysE : Sys :=
  { sampleSys with clients := [(3, sampleThumbE), (2, sampleThumbB)] }

/-- A left-button release over `sampleThumbA`. -/
def sampleLeftRelease : ButtonEvent := ⟨5, 5, .left, 42⟩

/-- A right-button press over `sampleThumbA`. -/
def sampleRightPress : ButtonEvent := ⟨5, 5, .right, 41⟩

/-- A right-button release over `sampleThumbE`. -/
def sampleRightReleaseE : ButtonEvent := ⟨55, 55, .right, 43⟩

/-- Non-button events used to exercise the frozen-drag invariant. -/
def sampleMidDragEvents : List Event :=
  [.motionNotify ⟨7, 8⟩, .focusIn 2 .normal, .focusOut 1 .normal 5,
   .netWmState 2 true]

end EvePreview

namespace EvePreview

/-! ## Supporting lemmas -/

theorem stripPfx_eq_some {p t s : List Char} :
    stripPfx p t = some s ↔ t = p ++ s := by
  induction p generalizing t with
  | nil => simp [stripPfx]
  | cons c cs ih =>
    cases t with
    | nil => simp [stripPfx]
    | cons d ds =>
      by_cases h : c = d
      · subst h
        simp [stripPfx, ih]
      · simp [stripPfx, h, Ne.symm h]

theorem alistLookup_insert_ne {α β : Type} [DecidableEq α]
    (m : List (α × β)) (k k' : α) (v : β) (h : k ≠ k') :
    alistLookup (alistInsert m k v) k' = alistLookup m k' := by
  unfold alistLookup alistInsert
  rw [List.find?_cons_of_neg _ (by simp [h])]
  congr 1
  induction m with
  | nil => rfl
  | cons p ps ih =>
    rw [List.filter_cons]
    by_cases hp : p.1 = k
    · rw [if_neg (by simp [hp])]
      rw [List.find?_cons_of_neg _ (by simp [hp, h])]
      exact ih
    · rw [if_pos (by simp [hp])]
      by_cases hq : p.1 = k'
      · rw [List.find?_cons_of_pos _ (by simp [hq]),
          List.find?_cons_of_pos _ (by simp [hq])]
      · rw [List.find?_cons_of_neg _ (by simp [hq]),
          List.find?_cons_of_neg _ (by simp [hq])]
        exact ih

theorem lookupClient_updateClient (clients : List (Nat × Thumb)) (ck k : Nat)
    (f : Thumb → Thumb) :
    lookupClient (updateClient clients ck f) k =
      (lookupClient clients k).map (fun t => if k = ck then f t else t) := by
  unfold lookupClient updateClient
  rw [List.find?_map]
  have hpred : ((fun p : Nat × Thumb => decide (p.1 = k)) ∘ fun p =>
      if p.1 = ck then (p.1, f p.2) else p) =
      fun p : Nat × Thumb => decide (p.1 = k) := by
    funext p
    by_cases hp : p.1 = ck <;> simp [Function.comp, hp]
  rw [hpred]
  cases hf : clients.find? (fun p => decide (p.1 = k)) with
  | none => rfl
  | some q =>
    have hq : q.1 = k := by simpa using List.find?_some hf
    by_cases hk : k = ck
    · subst hk
      simp [hq]
    · simp [hq, hk]

theorem lookupClient_map_proj {γ : Type} (clients : List (Nat × Thumb))
    (g : Nat × Thumb → Nat × Thumb) (proj : Thumb → γ)
    (hk : ∀ p, (g p).1 = p.1) (hproj : ∀ p, proj (g p).2 = proj p.2) (k : Nat) :
    (lookupClient (clients.map g) k).map proj = (lookupClient clients k).map proj := by
  unfold lookupClient
  rw [List.find?_map]
  have hpred : ((fun p : Nat × Thumb => decide (p.1 = k)) ∘ g) =
      fun p : Nat × Thumb => decide (p.1 = k) := by
    funext p
    simp [Function.comp, hk]
  rw [hpred]
  cases clients.find? (fun p => decide (p.1 = k)) with
  | none => rfl
  | some q => simp [hproj]

theorem borderOtherStep_fst_key (skipFn : String → Bool) (p : Nat × Thumb) :
    ((borderOtherStep skipFn p).1).1 = p.1 := by
  unfold borderOtherStep; split <;> rfl

theorem borderOtherStep_fst_name (skipFn : String → Bool) (p : Nat × Thumb) :
    ((borderOtherStep skipFn p).1).2.character_name = p.2.character_name := by
  unfold borderOtherStep; split <;> rfl

theorem borderOtherStep_fst_inputState (skipFn : String → Bool) (p : Nat × Thumb) :
    ((borderOtherStep skipFn p).1).2.input_state = p.2.input_state := by
  unfold borderOtherStep; split <;> rfl

theorem focusBorderStep_fst_key (w : Nat) (skipFn : String → Bool) (p : Nat × Thumb) :
    ((focusBorderStep w skipFn p).1).1 = p.1 := by
  unfold focusBorderStep
  split
  · split <;> rfl
  · split <;> rfl

theorem focusBorderStep_fst_inputState (w : Nat) (skipFn : String → Bool)
    (p : Nat × Thumb) :
    ((focusBorderStep w skipFn p).1).2.input_state = p.2.input_state := by
  unfold focusBorderStep
  split
  · split <;> rfl
  · split <;> rfl

theorem revealStep_fst_key (dcfg : DisplayConfig) (p : Nat × Thumb) :
    ((revealStep dcfg p).1).1 = p.1 := by
  unfold revealStep; split <;> rfl

theorem revealStep_fst_inputState (dcfg : DisplayConfig) (p : Nat × Thumb) :
    ((revealStep dcfg p).1).2.input_state = p.2.input_state := by
  unfold revealStep; split <;> rfl

theorem mem_borderPassClients (clients : List (Nat × Thumb)) (ck : Nat)
    (skipFn : String → Bool) (p : Nat × Thumb)
    (hp : p ∈ borderPassClients clients ck skipFn) :
    ∃ q ∈ clients, q.1 = p.1 ∧ q.2.character_name = p.2.character_name := by
  unfold borderPassClients updateClient at hp
  rw [List.map_map] at hp
  rcases List.mem_map.mp hp with ⟨q, hq, rfl⟩
  by_cases h : q.1 = ck
  · refine ⟨q, hq, ?_, ?_⟩ <;> simp [Function.comp, h]
  · refine ⟨q, hq, ?_, ?_⟩ <;>
      simp [Function.comp, h, borderOtherStep_fst_key, borderOtherStep_fst_name]

theorem borderPassCmds_benign (clients : List (Nat × Thumb)) (ck : Nat)
    (skipFn : String → Bool) :
    ∀ c ∈ borderPassCmds clients ck skipFn, c.benign = true := by
  intro c hc
  unfold borderPassCmds at hc
  rcases List.mem_append.mp hc with hc | hc
  · rcases List.mem_append.mp hc with hc | hc
    · revert hc
      cases lookupClient clients ck with
      | none => intro hc; cases hc
      | some t =>
        intro hc
        rcases List.mem_singleton.mp hc with rfl
        rfl
    · rcases List.mem_flatten.mp hc with ⟨l, hl, hcl⟩
      rcases List.mem_map.mp hl with ⟨p, hp, rfl⟩
      by_cases h : p.1 = ck
      · rw [if_pos h] at hcl; cases hcl
      · rw [if_neg h] at hcl
        unfold borderOtherStep at hcl
        revert hcl
        split <;> (intro hcl; rcases List.mem_singleton.mp hcl with rfl; rfl)
  · rcases List.mem_singleton.mp hc with rfl
    rfl

theorem borderPassClients_inputState (clients : List (Nat × Thumb)) (ck : Nat)
    (skipFn : String → Bool) (k : Nat) :
    (lookupClient (borderPassClients clients ck skipFn) k).map (·.input_state) =
      (lookupClient clients k).map (·.input_state) := by
  unfold borderPassClients
  rw [lookupClient_map_proj _ _ (fun t => t.input_state)
    (fun p => by by_cases h : p.1 = ck <;> simp [h, borderOtherStep_fst_key])
    (fun p => by by_cases h : p.1 = ck <;> simp [h, borderOtherStep_fst_inputState])]
  rw [lookupClient_updateClient]
  cases lookupClient clients k with
  | none => rfl
  | some u =>
    simp only [Option.map_some']
    split <;> rfl

theorem handle_focus_out_clients (S : Sys) (w : Nat) (mode : FocusMode) (now : Nat) :
    (handle_focus_out S w mode now).clients = S.clients := by
  unfold handle_focus_out
  split
  · rfl
  · split <;> rfl

theorem inputStateOf_focus_out (S : Sys) (w : Nat) (mode : FocusMode) (now k : Nat) :
    inputStateOf (handle_focus_out S w mode now) k = inputStateOf S k := by
  unfold inputStateOf
  rw [handle_focus_out_clients]

theorem inputStateOf_focus_in (S : Sys) (w : Nat) (mode : FocusMode) (k : Nat) :
    inputStateOf (handle_focus_in S w mode).1 k = inputStateOf S k := by
  unfold handle_focus_in
  by_cases hm : mode = FocusMode.ungrab
  · rw [if_pos hm]
  · rw [if_neg hm]
    by_cases hfil : (match S.cycle.current_window with
        | some expected => w ≠ expected && (lookupClient S.clients w).isNone
        | none => false) = true
    · rw [if_pos hfil]
    · rw [if_neg hfil]
      unfold inputStateOf
      dsimp only []
      rw [lookupClient_map_proj _
        (fun p => (focusBorderStep w (fun n => S.cycle.is_skipped n) p).1)
        (fun t => t.input_state)
        (fun p => focusBorderStep_fst_key w (fun n => S.cycle.is_skipped n) p)
        (fun p => focusBorderStep_fst_inputState w (fun n => S.cycle.is_skipped n) p)]
      by_cases hrev : (S.dcfg.hide_when_no_focus && S.clients.any fun p => !p.2.visible) = true
      · rw [if_pos hrev]
        rw [lookupClient_map_proj _ (fun p => (revealStep S.dcfg p).1)
          (fun t => t.input_state)
          (fun p => revealStep_fst_key S.dcfg p)
          (fun p => revealStep_fst_inputState S.dcfg p)]
      · rw [if_neg hrev]

theorem inputStateOf_motion (S : Sys) (ev : MotionEvent) (k : Nat) :
    inputStateOf (handle_motion_notify S ev).1 k = inputStateOf S k := by
  unfold handle_motion_notify
  cases hf : S.clients.find? (fun p => p.2.input_state.dragging) with
  | none => rfl
  | some pr =>
    obtain ⟨dw, t⟩ := pr
    unfold inputStateOf
    dsimp only []
    rw [lookupClient_updateClient]
    cases lookupClient S.clients k with
    | none => rfl
    | some u =>
      simp only [Option.map_some']
      split <;> rfl

theorem inputStateOf_net_wm_state (S : Sys) (w : Nat) (h : Bool) (k : Nat) :
    inputStateOf (handle_net_wm_state S w h).1 k = inputStateOf S k := by
  unfold handle_net_wm_state
  cases lookupClient S.clients w with
  | none => rfl
  | some t =>
    dsimp only []
    split
    · unfold inputStateOf
      dsimp only []
      rw [lookupClient_updateClient]
      cases lookupClient S.clients k with
      | none => rfl
      | some u =>
        simp only [Option.map_some']
        split <;> rfl
    · rfl

theorem inputStateOf_step_nonbutton (S : Sys) (e : Event) (k : Nat)
    (h : e.isButton = false) :
    inputStateOf (step S e).1 k = inputStateOf S k := by
  cases e with
  | buttonPress bv => simp [Event.isButton] at h
  | buttonRelease bv => simp [Event.isButton] at h
  | motionNotify ev => exact inputStateOf_motion S ev k
  | focusIn w mode => exact inputStateOf_focus_in S w mode k
  | focusOut w mode now => exact inputStateOf_focus_out S w mode now k
  | netWmState w hp => exact inputStateOf_net_wm_state S w hp k

theorem inputStateOf_run_nonbutton (S : Sys) (es : List Event) (k : Nat)
    (h : ∀ e ∈ es, e.isButton = false) :
    inputStateOf (run S es) k = inputStateOf S k := by
  induction es generalizing S with
  | nil => rfl
  | cons e es ih =>
    unfold run
    rw [List.foldl_cons]
    have h1 : inputStateOf (run (step S e).1 es) k = inputStateOf (step S e).1 k :=
      ih (step S e).1 (fun e' he' => h e' (List.mem_cons_of_mem e he'))
    unfold run at h1
    rw [h1, inputStateOf_step_nonbutton S e k (h e (List.mem_cons_self e es))]

/-! ## Claim theorems: classifier, queries, ops, fixed point, fonts -/

/-- C1 (counterexample): The claim says a window whose class does not
match the known-client classes is never title-verified.  The code
title-verifies any window whose PID passes the Wine-process gate, even
with a mismatching class: with the class gate false, PID 1 (not our own
PID 0) and a Wine-verified process, `should_inspect_title` is true and
`check_eve_window` accepts the window from its title alone. -/
theorem should_inspect_title_without_class_match :
    should_inspect_title false (some 1) 0 (fun _ => true) = true ∧
    check_eve_window false (some 1) 0 (fun _ => true)
        "EVE - ".data "EVE".data (.ok "EVE - Alice".data) =
      .ok (some "Alice".data) := by
  constructor
  · rfl
  · rfl

/-- C1 (amended): The title verification runs exactly when the
window's PID is present, differs from our own, and either the
Wine-process gate or the class gate passes — or when no PID is available
and the class gate passes.  In particular, a window failing both the
class gate and the Wine-process check is never title-verified, but a
Wine-verified process is title-verified even when its class does not
match. -/
theorem should_inspect_title_characterization :
    (∀ (isKnownClass : Bool) (pid : Option Nat) (selfPid : Nat) (isWine : Nat → Bool),
      should_inspect_title isKnownClass pid selfPid isWine = true ↔
        ((∃ p, pid = some p ∧ p ≠ selfPid ∧ (isWine p = true ∨ isKnownClass = true)) ∨
          (pid = none ∧ isKnownClass = true))) ∧
    (∀ (pid : Option Nat) (selfPid : Nat) (isWine : Nat → Bool),
      should_inspect_title false pid selfPid isWine = false ∨
        ∃ p, pid = some p ∧ p ≠ selfPid ∧ isWine p = true) := by
  constructor
  · intro isKnownClass pid selfPid isWine
    cases pid with
    | none => simp [should_inspect_title]
    | some p =>
      by_cases hp : p = selfPid
      · subst hp
        simp [should_inspect_title]
      · cases hw : isWine p <;> simp [should_inspect_title, hp, hw]
  · intro pid selfPid isWine
    cases pid with
    | none => left; rfl
    | some p =>
      by_cases hp : p = selfPid
      · subst hp; left; simp [should_inspect_title]
      · cases hw : isWine p with
        | false => left; simp [should_inspect_title, hp, hw]
        | true => right; exact ⟨p, rfl, hp, hw⟩

/-- C5: Provided the logged-out title does not itself start with the
title prefix (the spec's "distinct exact title"), the title gate
classifies a title as a logged-in client named by the suffix exactly when
the title starts with the prefix and the suffix does not contain the
container marker; as the logged-out variant exactly when the title equals
the logged-out title; and rejects every other title. -/
theorem classify_title_spec (pfx lo title s : List Char)
    (hdist : stripPfx pfx lo = none) :
    (classify_title pfx lo title = some (.LoggedIn s) ↔
      (stripPfx pfx title = some s ∧ containsSub steamAppMarker s = false)) ∧
    (classify_title pfx lo title = some .LoggedOut ↔ title = lo) ∧
    (classify_title pfx lo title = none ↔
      (stripPfx pfx title).elim (title ≠ lo)
        (fun n => containsSub steamAppMarker n = true)) := by
  refine ⟨?_, ?_, ?_⟩
  · unfold classify_title
    cases hstrip : stripPfx pfx title with
    | none =>
      by_cases hlo : title = lo <;> simp [hlo]
    | some n =>
      cases hm : containsSub steamAppMarker n with
      | true =>
        simp only [hm, if_true]
        constructor
        · intro h; cases h
        · rintro ⟨hs, hmf⟩
          injection hs with hs
          subst hs
          rw [hm] at hmf
          cases hmf
      | false =>
        simp only [hm, Bool.false_eq_true, if_false]
        constructor
        · intro h
          injection h with h1
          injection h1 with h2
          subst h2
          exact ⟨rfl, hm⟩
        · rintro ⟨hs, _⟩
          injection hs with hs
          subst hs
          rfl
  · unfold classify_title
    cases hstrip : stripPfx pfx title with
    | none =>
      by_cases hlo : title = lo <;> simp [hlo]
    | some n =>
      constructor
      · cases hm : containsSub steamAppMarker n <;> simp [hm]
      · intro hlo
        subst hlo
        rw [hstrip] at hdist
        cases hdist
  · unfold classify_title
    cases hstrip : stripPfx pfx title with
    | none =>
      by_cases hlo : title = lo <;> simp [hlo]
    | some n =>
      cases hm : containsSub steamAppMarker n <;> simp [hm]

/-- Witness for `classify_title_spec` at the concrete titles of the
source: prefix `"EVE - "`, logged-out title `"EVE"`, title
`"EVE - Alice"` classified as the logged-in character `"Alice"`. -/
theorem classify_title_spec_witness :
    stripPfx "EVE - ".data "EVE".data = none ∧
    ((classify_title "EVE - ".data "EVE".data "EVE - Alice".data =
        some (.LoggedIn "Alice".data) ↔
      (stripPfx "EVE - ".data "EVE - Alice".data = some "Alice".data ∧
        containsSub steamAppMarker "Alice".data = false)) ∧
    (classify_title "EVE - ".data "EVE".data "EVE - Alice".data = some .LoggedOut ↔
      "EVE - Alice".data = "EVE".data) ∧
    (classify_title "EVE - ".data "EVE".data "EVE - Alice".data = none ↔
      (stripPfx "EVE - ".data "EVE - Alice".data).elim
        ("EVE - Alice".data ≠ "EVE".data)
        (fun n => containsSub steamAppMarker n = true))) :=
  ⟨by decide,
    classify_title_spec "EVE - ".data "EVE".data "EVE - Alice".data "Alice".data
      (by decide)⟩

/-- C7: Every read-only query that observes a "window destroyed
between query and reply" report returns the absent value — `none` for the
title and class queries, `false` for the minimized check — and never
propagates an error; when the window vanishes before the second
(`WM_STATE`) minimized query, the result is exactly what the first query
established. -/
theorem queries_absent_on_window_gone :
    (∀ pfx lo, is_window_eve pfx lo .windowGone = .ok none) ∧
    (get_window_class .windowGone = .ok none) ∧
    (∀ hidden r2 iconic, is_window_minimized .windowGone hidden r2 iconic = .ok false) ∧
    (∀ values hidden iconic,
      is_window_minimized (.ok values) hidden .windowGone iconic =
        .ok ((values.getD []).contains hidden)) := by
  refine ⟨fun _ _ => rfl, rfl, fun _ _ _ => rfl, ?_⟩
  intro values hidden iconic
  unfold is_window_minimized
  cases h : (values.getD []).contains hidden <;> simp only [h, if_true,
    Bool.false_eq_true, if_false]

/-- C6: `minimize_window` emits exactly two client messages — first
the EWMH `_NET_WM_STATE` add-hidden message, then the ICCCM
`WM_CHANGE_STATE` iconic message, both addressed to the target window —
and ends with a flush; `unminimize_window` is symmetric with the EWMH
remove-hidden message first and the ICCCM normal-state message second. -/
theorem minimize_unminimize_message_order :
    ∀ (atoms : Atoms) (w : Nat),
      clientMessages (minimize_window atoms w) =
        [⟨w, atoms.net_wm_state,
            [NET_WM_STATE_ADD, atoms.net_wm_state_hidden, 0,
              ACTIVE_WINDOW_SOURCE_PAGER, 0]⟩,
         ⟨w, atoms.wm_change_state, [ICONIC_STATE, 0, 0, 0, 0]⟩] ∧
      (minimize_window atoms w).getLast? = some .flush ∧
      clientMessages (unminimize_window atoms w) =
        [⟨w, atoms.net_wm_state,
            [NET_WM_STATE_REMOVE, atoms.net_wm_state_hidden, 0,
              ACTIVE_WINDOW_SOURCE_PAGER, 0]⟩,
         ⟨w, atoms.wm_change_state, [NORMAL_STATE, 0, 0, 0, 0]⟩] ∧
      (unminimize_window atoms w).getLast? = some .flush := by
  intro atoms w
  exact ⟨rfl, rfl, rfl, rfl⟩

/-- C8: The fixed-point conversion satisfies `to_fixed 1 = 65536`,
`to_fixed (1/2) = 32768`, `to_fixed (-1) = -65536`, and `to_fixed (1/3)`
rounds to `21845`. -/
theorem to_fixed_values :
    to_fixed 1 = 65536 ∧ to_fixed (1/2) = 32768 ∧
    to_fixed (-1) = -65536 ∧ to_fixed (1/3) = 21845 := by
  refine ⟨?_, ?_, ?_, ?_⟩ <;> · norm_num [to_fixed, ratFloor]; decide

/-- C10: The X11 core-font fallback renderer returns the empty bitmap
for every input text and foreground color, and
`requires_direct_rendering` is true exactly for that fallback variant. -/
theorem render_text_fallback_empty :
    (∀ (fid : Nat) (size : ℚ) (text : List Char) (fg : Nat),
      FontRenderer.render_text (.X11Fallback fid size) text fg = ⟨0, 0, []⟩) ∧
    (∀ r : FontRenderer, r.requires_direct_rendering = true ↔
      ∃ fid size, r = .X11Fallback fid size) := by
  refine ⟨fun _ _ _ _ => rfl, ?_⟩
  intro r
  cases r with
  | Fontdue render size =>
    simp [FontRenderer.requires_direct_rendering]
  | X11Fallback fid size =>
    simp [FontRenderer.requires_direct_rendering]

/-! ## Claim theorems: event handlers -/

/-- C2: With `hide_when_no_focus` set, a FocusOut (mode other than
grab) on the tracked window whose thumbnail is focused schedules the
auto-hide deadline at `now + 100` ms; a FocusIn (mode other than ungrab)
on any tracked window clears the deadline — in particular one arriving
within 100 ms of the FocusOut, which therefore cancels the scheduled
hide. -/
theorem focus_hysteresis :
    (∀ (S : Sys) (w now : Nat) (mode : FocusMode) (t : Thumb),
      mode ≠ .grab → S.dcfg.hide_when_no_focus = true →
      lookupClient S.clients w = some t → t.state = .normal true →
      (handle_focus_out S w mode now).sess.focus_loss_deadline = some (now + 100)) ∧
    (∀ (S : Sys) (w : Nat) (mode : FocusMode),
      mode ≠ .ungrab → (lookupClient S.clients w).isSome = true →
      (handle_focus_in S w mode).1.sess.focus_loss_deadline = none) ∧
    (∀ (S : Sys) (wOut wIn now : Nat) (mOut mIn : FocusMode),
      mIn ≠ .ungrab → (lookupClient S.clients wIn).isSome = true →
      (handle_focus_in (handle_focus_out S wOut mOut now) wIn mIn).1.sess.focus_loss_deadline
        = none) := by
  have hin : ∀ (S : Sys) (w : Nat) (mode : FocusMode),
      mode ≠ .ungrab → (lookupClient S.clients w).isSome = true →
      (handle_focus_in S w mode).1.sess.focus_loss_deadline = none := by
    intro S w mode hmode htracked
    unfold handle_focus_in
    rw [if_neg hmode]
    have hfil : (match S.cycle.current_window with
        | some expected => w ≠ expected && (lookupClient S.clients w).isNone
        | none => false) = false := by
      cases S.cycle.current_window with
      | none => rfl
      | some e =>
        cases hl : lookupClient S.clients w with
        | none => rw [hl] at htracked; cases htracked
        | some t => simp [hl]
    rw [hfil]
    simp
  refine ⟨?_, hin, ?_⟩
  · intro S w now mode t hmode hhide hl hst
    unfold handle_focus_out
    rw [if_neg hmode, if_pos]
    rw [hhide, hl]
    simp [hst, TState.is_focused]
  · intro S wOut wIn now mOut mIn hmode htracked
    apply hin
    · exact hmode
    · rw [handle_focus_out_clients]
      exact htracked

/-- Witness for `focus_hysteresis`: in the sample scenario, a FocusOut on
the focused window 1 at instant 0 schedules the hide at instant 100, and
a FocusIn on window 1 — also right after that FocusOut — leaves no
pending deadline. -/
theorem focus_hysteresis_witness :
    ((FocusMode.normal ≠ FocusMode.grab) ∧
      sampleSys.dcfg.hide_when_no_focus = true ∧
      lookupClient sampleSys.clients 1 = some sampleThumbA ∧
      sampleThumbA.state = .normal true ∧
      (handle_focus_out sampleSys 1 .normal 0).sess.focus_loss_deadline = some (0 + 100)) ∧
    ((FocusMode.normal ≠ FocusMode.ungrab) ∧
      (lookupClient sampleSys.clients 1).isSome = true ∧
      (handle_focus_in sampleSys 1 .normal).1.sess.focus_loss_deadline = none) ∧
    (handle_focus_in (handle_focus_out sampleSys 1 .normal 0) 1
        .normal).1.sess.focus_loss_deadline = none :=
  ⟨⟨by decide, by decide, by decide, by decide,
      focus_hysteresis.1 sampleSys 1 0 .normal sampleThumbA (by decide) (by decide)
        (by decide) (by decide)⟩,
    ⟨by decide, by decide,
      focus_hysteresis.2.1 sampleSys 1 .normal (by decide) (by decide)⟩,
    focus_hysteresis.2.2 sampleSys 1 1 0 .normal .normal (by decide) (by decide)⟩

/-- C3: Every minimize command issued by the ButtonRelease handler is
the consequence of a left click with `client_minimize_on_switch` enabled,
and targets a tracked window other than the clicked source whose
identity's settings — custom-source settings first, then character
settings — do not set `exempt_from_minimize`; exempt identities are never
minimized. -/
theorem minimize_on_switch_exemption :
    ∀ (S : Sys) (ev : ButtonEvent) (w : Nat),
      Cmd.minimize w ∈ (handle_button_release S ev).2 →
        ev.detail = .left ∧
        S.cfg.profile.client_minimize_on_switch = true ∧
        ∃ ck, clickedWindowAtRelease S.clients ev.root_x ev.root_y = some ck ∧ w ≠ ck ∧
          ∃ t, (w, t) ∈ S.clients ∧
            isExempt (handle_button_release S ev).1.cfg t.character_name = false := by
  intro S ev w hmem
  cases hck : clickedWindowAtRelease S.clients ev.root_x ev.root_y with
  | none =>
    unfold handle_button_release at hmem
    rw [hck] at hmem
    simp at hmem
  | some ck =>
    cases hl : lookupClient S.clients ck with
    | none =>
      unfold handle_button_release at hmem
      rw [hck] at hmem
      dsimp only [] at hmem
      rw [hl] at hmem
      simp at hmem
    | some t =>
      by_cases hleft : ev.detail = Button.left
      case neg =>
        unfold handle_button_release at hmem
        rw [hck] at hmem
        dsimp only [] at hmem
        rw [hl] at hmem
        dsimp only [] at hmem
        simp only [hleft, if_false, decide_False, Bool.false_and, List.nil_append,
          List.append_nil, Bool.false_eq_true] at hmem
        revert hmem
        split <;> intro hmem <;> simp at hmem
      case pos =>
        have hcfg : (handle_button_release S ev).1.cfg =
            (if (t.input_state.dragging && decide (t.character_name ≠ "")) = true then
              if (S.cfg.profile.custom_windows.any fun r =>
                  decide (r.alias' = t.character_name)) = true then
                { S.cfg with custom_source_thumbnails :=
                    (alistInsert S.cfg.custom_source_thumbnails t.character_name
                      (CharacterSettings.new t.position.x t.position.y
                        t.dimensions.width t.dimensions.height)) }
              else
                { S.cfg with character_thumbnails :=
                    (alistInsert S.cfg.character_thumbnails t.character_name
                      (CharacterSettings.new t.position.x t.position.y
                        t.dimensions.width t.dimensions.height)) }
            else S.cfg) := by
          unfold handle_button_release
          rw [hck]
          dsimp only []
          rw [hl]
        rw [hcfg]
        unfold handle_button_release at hmem
        rw [hck] at hmem
        dsimp only [] at hmem
        rw [hl] at hmem
        dsimp only [borderPass] at hmem
        simp only [hleft, if_true, decide_True, Bool.true_and] at hmem
        set cfg1 := (if (t.input_state.dragging && decide (t.character_name ≠ "")) = true then
              if (S.cfg.profile.custom_windows.any fun r =>
                  decide (r.alias' = t.character_name)) = true then
                { S.cfg with custom_source_thumbnails :=
                    (alistInsert S.cfg.custom_source_thumbnails t.character_name
                      (CharacterSettings.new t.position.x t.position.y
                        t.dimensions.width t.dimensions.height)) }
              else
                { S.cfg with character_thumbnails :=
                    (alistInsert S.cfg.character_thumbnails t.character_name
                      (CharacterSettings.new t.position.x t.position.y
                        t.dimensions.width t.dimensions.height)) }
            else S.cfg) with hcfg1
        have hprof : cfg1.profile = S.cfg.profile := by
          rw [hcfg1]; split_ifs <;> rfl
        simp only [List.mem_append] at hmem
        rcases hmem with ((hmem | hmem) | hmem) | hmem
        · simp at hmem
        · revert hmem; split <;> intro hmem <;> simp at hmem
        · have := borderPassCmds_benign _ _ _ _ hmem
          simp [Cmd.benign] at this
        · revert hmem
          by_cases hmos : cfg1.profile.client_minimize_on_switch = true
          case neg => simp [hmos]
          case pos =>
            rw [if_pos hmos]
            intro hmem
            rcases List.mem_flatMap.mp hmem with ⟨a, ha, hin⟩
            simp only [List.mem_cons, List.mem_singleton] at hin
            rcases hin with hin | hin | hin
            · cases hin
            · have hwa : w = a := by injection hin
              unfold windows_to_minimize at ha
              rcases List.mem_map.mp ha with ⟨p, hp, hpw⟩
              rcases List.mem_filter.mp hp with ⟨hp1, hp2⟩
              rcases List.mem_filter.mp hp1 with ⟨hp0, hpck⟩
              rcases mem_borderPassClients _ _ _ _ hp0 with ⟨q, hq, hqk, hqn⟩
              unfold updateClient at hq
              rcases List.mem_map.mp hq with ⟨r, hr, hrq⟩
              have hrk : r.1 = p.1 := by
                rw [← hqk, ← hrq]
                by_cases h : r.1 = ck <;> simp [h]
              have hrn : r.2.character_name = p.2.character_name := by
                rw [← hqn, ← hrq]
                by_cases h : r.1 = ck <;> simp [h]
              have hpn : p.1 ≠ ck := of_decide_eq_true hpck
              refine ⟨hleft, ?_, ck, rfl, ?_, r.2, ?_, ?_⟩
              · rw [← hprof]; exact hmos
              · rw [hwa, ← hpw]; exact hpn
              · have hreq : r = (w, r.2) := by rw [hwa, ← hpw, ← hrk]
                exact hreq ▸ hr
              · rw [hrn]
                simpa using hp2
            · cases hin

/-- Witness for `minimize_on_switch_exemption`: a left release over the
sample scenario's window 1 minimizes window 2, which is tracked,
distinct from the clicked source and not exempt. -/
theorem minimize_on_switch_exemption_witness :
    Cmd.minimize 2 ∈ (handle_button_release sampleSys sampleLeftRelease).2 ∧
    (sampleLeftRelease.detail = .left ∧
      sampleSys.cfg.profile.client_minimize_on_switch = true ∧
      ∃ ck, clickedWindowAtRelease sampleSys.clients sampleLeftRelease.root_x
          sampleLeftRelease.root_y = some ck ∧ 2 ≠ ck ∧
        ∃ t, (2, t) ∈ sampleSys.clients ∧
          isExempt (handle_button_release sampleSys sampleLeftRelease).1.cfg
            t.character_name = false) :=
  ⟨by decide, minimize_on_switch_exemption sampleSys sampleLeftRelease 2 (by decide)⟩

theorem release_clients_inputState (S : Sys) (ev : ButtonEvent) (ck : Nat) (t : Thumb)
    (hck : clickedWindowAtRelease S.clients ev.root_x ev.root_y = some ck)
    (hl : lookupClient S.clients ck = some t) (k : Nat) :
    inputStateOf (handle_button_release S ev).1 k =
      (lookupClient S.clients k).map
        (fun u => if k = ck then
          { u.input_state with dragging := false, snap_targets := [] }
        else u.input_state) := by
  unfold handle_button_release
  rw [hck]
  dsimp only []
  rw [hl]
  dsimp only [borderPass]
  unfold inputStateOf
  by_cases hleft : ev.detail = Button.left
  · simp only [hleft, if_true]
    rw [borderPassClients_inputState]
    rw [lookupClient_updateClient]
    cases lookupClient S.clients k with
    | none => rfl
    | some u =>
      simp only [Option.map_some']
      split <;> rfl
  · simp only [hleft, if_false]
    rw [lookupClient_updateClient]
    cases lookupClient S.clients k with
    | none => rfl
    | some u =>
      simp only [Option.map_some']
      split <;> rfl

theorem press_right_capture (S : Sys) (ev : ButtonEvent) (ck : Nat) (t : Thumb)
    (hright : ev.detail = .right)
    (hck : clickedWindowAtPress S.clients ev.root_x ev.root_y = some ck)
    (hl : lookupClient S.clients ck = some t) :
    inputStateOf (handle_button_press S ev) ck =
      some ⟨true, ⟨ev.root_x, ev.root_y⟩, t.position, captureSnapTargets S.clients ck⟩ := by
  unfold handle_button_press
  rw [hck]
  dsimp only []
  unfold inputStateOf
  dsimp only []
  rw [lookupClient_updateClient, hl]
  simp [hright]

theorem press_left_preserves (S : Sys) (ev : ButtonEvent) (k : Nat)
    (hleft : ev.detail = .left) :
    (inputStateOf (handle_button_press S ev) k).map (fun i => (i.dragging, i.snap_targets)) =
      (inputStateOf S k).map (fun i => (i.dragging, i.snap_targets)) := by
  unfold handle_button_press
  cases hck : clickedWindowAtPress S.clients ev.root_x ev.root_y with
  | none => rfl
  | some ck =>
    dsimp only []
    unfold inputStateOf
    dsimp only []
    rw [lookupClient_updateClient]
    cases lookupClient S.clients k with
    | none => rfl
    | some u =>
      simp only [Option.map_some']
      split
      · simp [hleft]
      · rfl

/-- C4: A right ButtonPress on a hovered visible thumbnail freezes the
captured snap targets — the geometries of every other visible tracked
thumbnail at press time — and sets `dragging`; motion, focus and
window-state handlers never mutate any thumbnail's input state, so the
frozen list survives until ButtonRelease, which clears `snap_targets`
and `dragging` on the clicked thumbnail and leaves every other input
state untouched; a left ButtonPress never changes `dragging` or
`snap_targets`. -/
theorem drag_snap_invariant :
    (∀ (S : Sys) (ev : ButtonEvent) (ck : Nat) (t : Thumb) (es : List Event),
      ev.detail = .right →
      clickedWindowAtPress S.clients ev.root_x ev.root_y = some ck →
      lookupClient S.clients ck = some t →
      (∀ e ∈ es, e.isButton = false) →
      inputStateOf (run (handle_button_press S ev) es) ck =
        some ⟨true, ⟨ev.root_x, ev.root_y⟩, t.position,
          captureSnapTargets S.clients ck⟩) ∧
    (∀ (S : Sys) (ev : ButtonEvent) (k : Nat),
      ev.detail = .left →
      (inputStateOf (handle_button_press S ev) k).map
          (fun i => (i.dragging, i.snap_targets)) =
        (inputStateOf S k).map (fun i => (i.dragging, i.snap_targets))) ∧
    (∀ (S : Sys) (ev : ButtonEvent) (ck : Nat) (t : Thumb),
      clickedWindowAtRelease S.clients ev.root_x ev.root_y = some ck →
      lookupClient S.clients ck = some t →
      inputStateOf (handle_button_release S ev).1 ck =
        some { t.input_state with dragging := false, snap_targets := [] } ∧
      ∀ k, k ≠ ck → inputStateOf (handle_button_release S ev).1 k = inputStateOf S k) := by
  refine ⟨?_, press_left_preserves, ?_⟩
  · intro S ev ck t es hright hck hl hes
    rw [inputStateOf_run_nonbutton _ es ck hes]
    exact press_right_capture S ev ck t hright hck hl
  · intro S ev ck t hck hl
    constructor
    · rw [release_clients_inputState S ev ck t hck hl ck, hl]
      simp
    · intro k hk
      rw [release_clients_inputState S ev ck t hck hl k]
      unfold inputStateOf
      cases lookupClient S.clients k with
      | none => rfl
      | some u => simp [hk]

/-- Witness for `drag_snap_invariant`: a right press over the sample
scenario's window 1 captures window 2's geometry as the only snap
target; the frozen state survives a motion, a focus-in, a focus-out and
a window-state event; a right release over the dragging logged-out
thumbnail clears its drag state and leaves window 2's input state
unchanged. -/
theorem drag_snap_invariant_witness :
    (sampleRightPress.detail = .right ∧
      clickedWindowAtPress sampleSys.clients sampleRightPress.root_x
        sampleRightPress.root_y = some 1 ∧
      lookupClient sampleSys.clients 1 = some sampleThumbA ∧
      (∀ e ∈ sampleMidDragEvents, e.isButton = false) ∧
      inputStateOf (run (handle_button_press sampleSys sampleRightPress)
          sampleMidDragEvents) 1 =
        some ⟨true, ⟨5, 5⟩, sampleThumbA.position,
          captureSnapTargets sampleSys.clients 1⟩) ∧
    ((inputStateOf (handle_button_press sampleSys sampleLeftRelease) 2).map
        (fun i => (i.dragging, i.snap_targets)) =
      (inputStateOf sampleSys 2).map (fun i => (i.dragging, i.snap_targets))) ∧
    (clickedWindowAtRelease sampleSysE.clients sampleRightReleaseE.root_x
        sampleRightReleaseE.root_y = some 3 ∧
      lookupClient sampleSysE.clients 3 = some sampleThumbE ∧
      inputStateOf (handle_button_release sampleSysE sampleRightReleaseE).1 3 =
        some { sampleThumbE.input_state with dragging := false, snap_targets := [] } ∧
      inputStateOf (handle_button_release sampleSysE sampleRightReleaseE).1 2
        = inputStateOf sampleSysE 2) :=
  ⟨⟨by decide, by decide, by decide, by decide,
      drag_snap_invariant.1 sampleSys sampleRightPress 1 sampleThumbA
        sampleMidDragEvents (by decide) (by decide) (by decide) (by decide)⟩,
    drag_snap_invariant.2.1 sampleSys sampleLeftRelease 2 (by decide),
    ⟨by decide, by decide,
      (drag_snap_invariant.2.2 sampleSysE sampleRightReleaseE 3 sampleThumbE
        (by decide) (by decide)).1,
      (drag_snap_invariant.2.2 sampleSysE sampleRightReleaseE 3 sampleThumbE
        (by decide) (by decide)).2 2 (by decide)⟩⟩

/-- C9: The core never persists settings under the empty (logged-out)
identity: a ButtonRelease on an empty-named thumbnail leaves both
settings maps untouched and emits no `PositionChanged` message, while
still recording the drag-end position in the session state; for any
release, the empty key's binding in either settings map is unchanged;
and the initial scan's settings insertion skips empty-named clients, so
neither map ever gains an empty-string key. -/
theorem no_empty_identity_persisted :
    (∀ (S : Sys) (ev : ButtonEvent) (ck : Nat) (t : Thumb),
      clickedWindowAtRelease S.clients ev.root_x ev.root_y = some ck →
      lookupClient S.clients ck = some t →
      t.character_name = "" →
      (handle_button_release S ev).1.cfg = S.cfg ∧
      (∀ n x y wd ht c,
        Cmd.positionChanged n x y wd ht c ∉ (handle_button_release S ev).2) ∧
      (t.input_state.dragging = true →
        (handle_button_release S ev).1.sess.window_positions =
          alistInsert S.sess.window_positions ck t.position)) ∧
    (∀ (S : Sys) (ev : ButtonEvent),
      alistLookup (handle_button_release S ev).1.cfg.character_thumbnails "" =
        alistLookup S.cfg.character_thumbnails "" ∧
      alistLookup (handle_button_release S ev).1.cfg.custom_source_thumbnails "" =
        alistLookup S.cfg.custom_source_thumbnails "") ∧
    (∀ (entries : List ScanEntry) (m : List (String × CharacterSettings)),
      alistLookup (scan_insert_settings entries m) "" = alistLookup m "") := by
  refine ⟨?_, ?_, ?_⟩
  · intro S ev ck t hck hl hname
    refine ⟨?_, ?_, ?_⟩
    · unfold handle_button_release
      rw [hck]
      dsimp only []
      rw [hl]
      dsimp only []
      rw [hname]
      simp
    · intro n x y wd ht c hmem
      unfold handle_button_release at hmem
      rw [hck] at hmem
      dsimp only [] at hmem
      rw [hl] at hmem
      dsimp only [borderPass] at hmem
      rw [hname] at hmem
      simp only [ne_eq, decide_not, decide_True, Bool.not_true, Bool.and_false,
        Bool.false_eq_true, if_false, List.nil_append, List.append_nil] at hmem
      by_cases hleft : ev.detail = Button.left
      · simp only [hleft, if_true] at hmem
        rcases List.mem_append.mp hmem with hmem | hmem
        · rcases List.mem_append.mp hmem with hmem | hmem
          · simp at hmem
          · have := borderPassCmds_benign _ _ _ _ hmem
            simp [Cmd.benign] at this
        · revert hmem
          split
          · intro hmem
            rcases List.mem_flatMap.mp hmem with ⟨a, ha, hin⟩
            simp at hin
          · intro hmem
            simp at hmem
      · simp only [hleft, if_false, List.nil_append] at hmem
        revert hmem
        split
        · intro hmem
          rcases List.mem_flatMap.mp hmem with ⟨a, ha, hin⟩
          simp at hin
        · intro hmem
          simp at hmem
    · intro hd
      unfold handle_button_release
      rw [hck]
      dsimp only []
      rw [hl]
      dsimp only []
      rw [hd]
      simp
  · intro S ev
    cases hck : clickedWindowAtRelease S.clients ev.root_x ev.root_y with
    | none =>
      unfold handle_button_release
      rw [hck]
      exact ⟨rfl, rfl⟩
    | some ck =>
      cases hl : lookupClient S.clients ck with
      | none =>
        unfold handle_button_release
        rw [hck]
        dsimp only []
        rw [hl]
        exact ⟨rfl, rfl⟩
      | some t =>
        unfold handle_button_release
        rw [hck]
        dsimp only []
        rw [hl]
        dsimp only []
        by_cases hcond : (t.input_state.dragging && decide (t.character_name ≠ "")) = true
        · have hname : t.character_name ≠ "" := by
            have h1 := hcond
            simp only [Bool.and_eq_true, decide_eq_true_eq] at h1
            exact h1.2
          by_cases hcust : (S.cfg.profile.custom_windows.any fun r =>
              decide (r.alias' = t.character_name)) = true
          · rw [if_pos hcond, if_pos hcust]
            exact ⟨rfl, alistLookup_insert_ne _ _ _ _ hname⟩
          · rw [if_pos hcond, if_neg hcust]
            exact ⟨alistLookup_insert_ne _ _ _ _ hname, rfl⟩
        · rw [if_neg hcond]
          exact ⟨rfl, rfl⟩
  · intro entries
    induction entries with
    | nil => intro m; rfl
    | cons e es ih =>
      intro m
      unfold scan_insert_settings
      rw [List.foldl_cons]
      by_cases hn : e.character_name = ""
      · rw [if_pos hn]
        exact ih m
      · rw [if_neg hn]
        have h1 := ih (alistInsert m e.character_name
          (CharacterSettings.new e.geom.x e.geom.y e.dims.width e.dims.height))
        unfold scan_insert_settings at h1
        rw [h1]
        exact alistLookup_insert_ne _ _ _ _ hn

/-- Witness for `no_empty_identity_persisted`: releasing the drag of the
empty-named thumbnail records its position in the session state but
changes no settings map and emits no `PositionChanged`; the scan
insertion skips an empty-named entry and keeps the empty key absent. -/
theorem no_empty_identity_persisted_witness :
    (clickedWindowAtRelease sampleSysE.clients sampleRightReleaseE.root_x
        sampleRightReleaseE.root_y = some 3 ∧
      lookupClient sampleSysE.clients 3 = some sampleThumbE ∧
      sampleThumbE.character_name = "" ∧
      (handle_button_release sampleSysE sampleRightReleaseE).1.cfg = sampleSysE.cfg ∧
      Cmd.positionChanged "" 50 50 10 10 false ∉
        (handle_button_release sampleSysE sampleRightReleaseE).2 ∧
      (handle_button_release sampleSysE sampleRightReleaseE).1.sess.window_positions =
        alistInsert sampleSysE.sess.window_positions 3 sampleThumbE.position) ∧
    (alistLookup (handle_button_release sampleSys sampleLeftRelease).1.cfg.character_thumbnails
        "" = alistLookup sampleSys.cfg.character_thumbnails "" ∧
      alistLookup
          (handle_button_release sampleSys sampleLeftRelease).1.cfg.custom_source_thumbnails
        "" = alistLookup sampleSys.cfg.custom_source_thumbnails "") ∧
    (alistLookup (scan_insert_settings
        [⟨7, "", ⟨10, 10⟩, ⟨1, 2⟩⟩, ⟨8, "Carol", ⟨10, 10⟩, ⟨3, 4⟩⟩]
        [("Dora", CharacterSettings.new 0 0 5 5)]) "" =
      alistLookup [("Dora", CharacterSettings.new 0 0 5 5)] "") := by
  have h1 := no_empty_identity_persisted.1 sampleSysE sampleRightReleaseE 3 sampleThumbE
    (by decide) (by decide) (by decide)
  exact ⟨⟨by decide, by decide, by decide, h1.1,
      h1.2.1 "" 50 50 10 10 false, h1.2.2 (by decide)⟩,
    no_empty_identity_persisted.2.1 sampleSys sampleLeftRelease,
    no_empty_identity_persisted.2.2
      [⟨7, "", ⟨10, 10⟩, ⟨1, 2⟩⟩, ⟨8, "Carol", ⟨10, 10⟩, ⟨3, 4⟩⟩]
      [("Dora", CharacterSettings.new 0 0 5 5)]⟩

end EvePreview
